import Mathlib
/-!
Verification of the `bazel-annotate` Buildkite plugin's BEP tooling.

This file shallowly embeds the Python sources under `src/` — the BEP test-file
generator `src/utils/generate_large_bep_files.py` and the constant table
`src/bin/config.py` — together with the parts of the documented record-reader
contract that the repository's analyzer binary (absent from `src/`) is
specified to implement.  Bytes are modelled as natural numbers below 256,
Python byte strings as `List Nat`, Python `float` rates as exact rationals,
and fallible Python expressions (division and modulo by zero) as
`Option`-valued functions.
-/

/-! ## Varint encoder (from `encode_varint`, `src/utils/generate_large_bep_files.py` lines 22-29)

The Python loop `while value >= 0x80: emit((value & 0x7F) | 0x80); value >>= 7`
is embedded with an explicit fuel argument (the initial value itself bounds the
number of iterations) so that the function stays structurally recursive and
kernel-computable; `encodeVarintGo_congr` shows the fuel is irrelevant once
sufficient. -/
def encodeVarintGo : Nat → Nat → List Nat
  | 0, value => [value]
  | fuel + 1, value =>
    if 0x80 ≤ value then ((value &&& 0x7F) ||| 0x80) :: encodeVarintGo fuel (value >>> 7)
    else [value]

/-- Embedding of `encode_varint` from the generator source. -/
def encode_varint (value : Nat) : List Nat := encodeVarintGo value value

/-! ## Varint reader

Modelled from the spec: §4.1 `VarintReader` — "`readVarint(cursor) ->
(value: uint64, bytesConsumed: uint32)`", seven value bits per byte,
least-significant group first, continuation bit `0x80`.  The analyzer binary
implementing it is not part of `src/`.  `readVarint` is the reader with the
configurable continuation-byte cap set beyond any input considered;
`readVarintCapped`/`readVarintSpec` add the default cap
(`MAX_VARINT_BYTES = 10`) and the rejection of values wider than 64 bits. -/
def readVarint : List Nat → Option (Nat × Nat)
  | [] => none
  | b :: rest =>
    if b < 0x80 then some (b, 1)
    else
      match readVarint rest with
      | some (v, k) => some (b % 0x80 + 0x80 * v, k + 1)
      | none => none

/-- Modelled from the spec: the capped reader; `maxCont` counts the
continuation bytes still allowed before a terminating byte must appear. -/
def readVarintCapped (maxCont : Nat) : List Nat → Option (Nat × Nat)
  | [] => none
  | b :: rest =>
    if b < 0x80 then some (b, 1)
    else
      match maxCont with
      | 0 => none
      | m + 1 =>
        match readVarintCapped m rest with
        | some (v, k) => some (b % 0x80 + 0x80 * v, k + 1)
        | none => none

/-- Constant from `src/bin/config.py`: maximum bytes for a protobuf varint. -/
def MAX_VARINT_BYTES : Nat := 10

/-- Modelled from the spec: §4.1 — the reader with the default continuation
cap of `MAX_VARINT_BYTES` and the "values wider than 64 bits … are rejected,
not wrapped" rule. -/
def readVarintSpec (bytes : List Nat) : Option (Nat × Nat) :=
  match readVarintCapped MAX_VARINT_BYTES bytes with
  | some (v, k) => if v < 2 ^ 64 then some (v, k) else none
  | none => none

/-! ## Length-prefixed record framing

`framed` is the byte sequence the generator writes for one payload
(`f.write(encode_varint(len(message))); f.write(message)`), and `streamOf`
is the whole file laid out record after record.  `parseRecords` is the
record reader: modelled from the spec, §4.2 `RecordStream` — read one varint
length, then exactly that many payload bytes; clean end at end of input.
The configurable file-size / record-size ceilings and the varint byte cap are
taken as configured beyond every input considered here; the fuel argument
(one unit per record, bounded by the byte length of the input) keeps the
function structurally recursive. -/
def framed (payload : List Nat) : List Nat := encode_varint payload.length ++ payload

def streamOf (records : List (List Nat)) : List Nat := (records.map framed).flatten

def parseRecordsGo : Nat → List Nat → Option (List (List Nat))
  | _, [] => some []
  | 0, _ :: _ => none
  | fuel + 1, b :: bs =>
    match readVarint (b :: bs) with
    | none => none
    | some (len, k) =>
      if len ≤ ((b :: bs).drop k).length then
        match parseRecordsGo fuel (((b :: bs).drop k).drop len) with
        | some rs => some (((b :: bs).drop k).take len :: rs)
        | none => none
      else none

/-- Modelled from the spec: §4.2 `RecordStream` over a byte source. -/
def parseRecords (bytes : List Nat) : Option (List (List Nat)) :=
  parseRecordsGo bytes.length bytes

/-! ## Substring search

`containsB pat s` scans `s` for an occurrence of the contiguous pattern
`pat`; `sContains s pat` is the same test on the character data of two
strings.  These are verification utilities used to state which tokens occur
in generated event payloads. -/
def isPrefB {α : Type} [BEq α] : List α → List α → Bool
  | [], _ => true
  | _ :: _, [] => false
  | c :: p, x :: s => c == x && isPrefB p s

def containsB {α : Type} [BEq α] (pat : List α) : List α → Bool
  | [] => pat.isEmpty
  | a :: s => isPrefB pat (a :: s) || containsB pat s

def sContains (s pat : String) : Bool := containsB pat.data s.data

/-! ## Event payload text

Embedding of `create_build_event_message` / `create_test_event_message`
(`src/utils/generate_large_bep_files.py` lines 32-123).  Each Python
f-string is reproduced as the concatenation of its literal segments (named
`…Head`/`…Mid`/`…Tail` below, in source order) with the interpolated parts;
the functions return the payload text whose UTF-8 encoding (`strBytes`) the
Python code returns. -/
def pkgPath (target_name : String) : String :=
  String.mk ((target_name.data.takeWhile (fun c => !(c == ':'))).dropWhile (fun c => c == '/'))

def error_types (pkg_path : String) (target_index : Nat) : List String :=
  [pkg_path ++ "/main.cpp:" ++ toString (42 + target_index % 100) ++ ":" ++
     toString (15 + target_index % 20) ++
     ": error: use of undeclared identifier \x27undefined_var_" ++ toString target_index ++ "\x27",
   pkg_path ++ "/utils.h:" ++ toString (25 + target_index % 50) ++
     ":8: error: \x27missing_function\x27 was not declared in this scope",
   pkg_path ++ "/parser.cc:" ++ toString (78 + target_index % 30) ++
     ":12: error: no matching function for call to \x27parse_" ++ toString target_index ++ "\x27",
   "BUILD:" ++ toString (10 + target_index % 20) ++
     ":1: name \x27undefined_dependency_" ++ toString target_index ++ "\x27 is not defined",
   pkg_path ++ "/config.py:" ++ toString (33 + target_index % 40) ++
     ":5: SyntaxError: invalid syntax near \x27broken_code_" ++ toString target_index ++ "\x27",
   pkg_path ++ "/lib.java:" ++ toString (91 + target_index % 60) ++
     ":20: error: cannot find symbol variable missing_var_" ++ toString target_index]

def test_errors (pkg_path : String) (target_index : Nat) : List String :=
  [pkg_path ++ "/test_main.py:" ++ toString (45 + target_index % 80) ++
     ":12: AssertionError: Expected " ++ toString (5 + target_index) ++ " but got " ++
     toString (3 + target_index),
   pkg_path ++ "/unit_tests.cpp:" ++ toString (67 + target_index % 60) ++
     ":8: EXPECT_EQ failed: expected value_" ++ toString target_index ++ " == actual_value_" ++
     toString target_index,
   pkg_path ++ "/integration_test.java:" ++ toString (89 + target_index % 40) ++
     ":15: junit.framework.AssertionFailedError: Test failed at step " ++ toString target_index,
   pkg_path ++ "/test_utils.go:" ++ toString (23 + target_index % 50) ++
     ":5: panic: runtime error: index out of range [" ++ toString target_index ++ "]",
   pkg_path ++ "/spec_test.rb:" ++ toString (56 + target_index % 70) ++
     ":10: RSpec::Expectations::ExpectationNotMetError: expected behavior_" ++
     toString target_index,
   pkg_path ++ "/test_runner.kt:" ++ toString (34 + target_index % 90) ++
     ":7: kotlin.test.AssertionError: Test " ++ toString target_index ++ " assertion failed"]

def buildEvHead : String :=
  "\n\x7b\n  \"id\": \x7b\n    \"targetCompleted\": \x7b\n      \"label\": \""

def buildEvSuccTail : String :=
  "\"\n    \x7d\n  \x7d,\n  \"completed\": \x7b\n    \"success\": true\n  \x7d\n\x7d\n"

def buildEvFailMid : String :=
  "\"\n    \x7d\n  \x7d,\n  \"completed\": \x7b\n    \"success\": false\n  \x7d,\n  \"aborted\": \x7b\n    \"reason\": \"BUILD_FAILED\",\n    \"description\": \""

def buildEvFailTail : String := "\"\n  \x7d\n\x7d\n"

def testEvHead : String :=
  "\n\x7b\n  \"id\": \x7b\n    \"testResult\": \x7b\n      \"label\": \""

def testEvSuccTail : String :=
  "\"\n    \x7d\n  \x7d,\n  \"testResult\": \x7b\n    \"status\": \"PASSED\"\n  \x7d\n\x7d\n"

def testEvFailMid : String :=
  "\"\n    \x7d\n  \x7d,\n  \"testResult\": \x7b\n    \"status\": \"FAILED\",\n    \"testAttemptDurationMillis\": \"1000\"\n  \x7d,\n  \"testFailureMessage\": \""

def testEvFailTail : String := "\"\n\x7d\n"

def create_build_event_message (target_name : String) (success : Bool) (target_index : Nat) :
    String :=
  if success then buildEvHead ++ target_name ++ buildEvSuccTail
  else
    buildEvHead ++ target_name ++ buildEvFailMid ++
      (error_types (pkgPath target_name) target_index).getD
        (target_index % (error_types (pkgPath target_name) target_index).length) "" ++
      buildEvFailTail

def create_test_event_message (target_name : String) (success : Bool) (target_index : Nat) :
    String :=
  if success then testEvHead ++ target_name ++ testEvSuccTail
  else
    testEvHead ++ target_name ++ testEvFailMid ++
      (test_errors (pkgPath target_name) target_index).getD
        (target_index % (test_errors (pkgPath target_name) target_index).length) "" ++
      testEvFailTail

/-! ## UTF-8 encoding of payload text (Python `content.encode('utf-8')`) -/
def utf8Bytes (c : Nat) : List Nat :=
  if c < 0x80 then [c]
  else if c < 0x800 then [0xC0 + c / 0x40, 0x80 + c % 0x40]
  else if c < 0x10000 then [0xE0 + c / 0x1000, 0x80 + c / 0x40 % 0x40, 0x80 + c % 0x40]
  else [0xF0 + c / 0x40000, 0x80 + c / 0x1000 % 0x40, 0x80 + c / 0x40 % 0x40, 0x80 + c % 0x40]

def strBytes (s : String) : List Nat := (s.data.map (fun c => utf8Bytes c.toNat)).flatten

/-! ## The generator main loop

Embedding of `generate_large_bep_file` (`src/utils/generate_large_bep_files.py`
lines 126-166).  The Python `failure_rate` float is modelled as an exact
rational; `int(...)` truncation, `1 / failure_rate` and `i % int(...)` are
modelled by `pyInt`, `pyDivOpt` and `pyModOpt`, the latter two `Option`-valued
because the Python operations raise `ZeroDivisionError` on a zero divisor.
The byte stream written to the output file is the header record, one record
per target (build events for even indices, test events for odd ones), and a
completion record, each length-prefixed — `genRecordsO` lists the payloads in
write order and `genFileO` is the flat byte stream. -/
def pyDivOpt (a b : ℚ) : Option ℚ := if b = 0 then none else some (a / b)

def pyInt (q : ℚ) : Int := if 0 ≤ q then ⌊q⌋ else -⌊-q⌋

def pyModOpt (a m : Nat) : Option Nat := if m = 0 then none else some (a % m)

def isFailureO (failure_rate : ℚ) (i : Nat) : Option Bool :=
  if 0 < failure_rate then
    match pyDivOpt 1 failure_rate with
    | none => none
    | some q =>
      match pyModOpt i (pyInt q).toNat with
      | none => none
      | some m => some (m == 0)
  else some false

def targetName (i : Nat) : String :=
  "//pkg" ++ String.mk (List.replicate (4 - (toString (i / 50)).length) '0') ++ toString (i / 50) ++
    ":target" ++ String.mk (List.replicate (6 - (toString i).length) '0') ++ toString i

def targetEventContentO (failure_rate : ℚ) (i : Nat) : Option String :=
  match isFailureO failure_rate i with
  | none => none
  | some is_failure =>
    some (if i % 2 = 0 then create_build_event_message (targetName i) (!is_failure) i
          else create_test_event_message (targetName i) (!is_failure) i)

def headerMsg : String :=
  "\x7b\"started\": \x7b\"uuid\": \"test-build-id\", \"startTime\": \x7b\"seconds\": 1642000000\x7d\x7d\x7d"

def completionMsg (num_failures : Nat) : String :=
  "\x7b\"finished\": \x7b\"exitCode\": \x7b\"code\": " ++
    (if 0 < num_failures then "1" else "0") ++ "\x7d\x7d\x7d"

def mapO {α β : Type} (f : α → Option β) : List α → Option (List β)
  | [] => some []
  | a :: as =>
    match f a, mapO f as with
    | some b, some bs => some (b :: bs)
    | _, _ => none

def numFailuresO (num_targets : Nat) (failure_rate : ℚ) : Option Nat :=
  match mapO (isFailureO failure_rate) (List.range num_targets) with
  | some flags => some (flags.count true)
  | none => none

def genRecordsO (num_targets : Nat) (failure_rate : ℚ) : Option (List (List Nat)) :=
  match mapO (targetEventContentO failure_rate) (List.range num_targets),
      numFailuresO num_targets failure_rate with
  | some contents, some k =>
    some (strBytes headerMsg :: (contents.map strBytes ++ [strBytes (completionMsg k)]))
  | _, _ => none

def genFileO (num_targets : Nat) (failure_rate : ℚ) : Option (List Nat) :=
  match genRecordsO num_targets failure_rate with
  | some rs => some (streamOf rs)
  | none => none

/-! ## Remaining constants from `src/bin/config.py` -/
def MAX_FILE_SIZE_MB_DEFAULT : Nat := 100

def MAX_FAILURES_DEFAULT : Nat := 50

def MAX_MESSAGE_SIZE : Nat := 5000

def MAX_ERROR_LINES : Nat := 10

def MAX_STRINGS_PER_EVENT : Nat := 20

def ANNOTATION_RETRY_ATTEMPTS : Nat := 3

def ANNOTATION_RETRY_BASE_DELAY_SECONDS : ℚ := 1.0

/-- Modelled from the spec: §4.4 — "path made of filename characters". -/
def isFilenameChar (c : Char) : Bool :=
  c.isAlphanum || c == '.' || c == '_' || c == '/' || c == '-'

/-- Modelled from the spec: the analyzer CLI (`bin/bazel_failure_analyzer`,
absent from `src/`), restricted to what §6-§7 and `src/tests/test_analyzer.py`
pin down: a missing input file is a fatal input-access error (exit `1`, the
diagnostic `Error: BEP file not found` on standard error, no analysis
attempted); a readable input is parsed as a record stream, a framing failure
is a distinct non-zero exit, and a successful analysis — including the
zero-record "no failures" case — exits `0`.  The result pairs the exit code
with the standard-error text. -/
def analyzerRun (input : Option (List Nat)) : Nat × String :=
  match input with
  | none => (1, "Error: BEP file not found")
  | some bytes =>
    match parseRecords bytes with
    | none => (2, "Error: failed to parse BEP stream")
    | some _ => (0, "")

/-! ### Source locations inside failing payloads

`locNeedle p l c` is a `path:line:column:` shaped token (the line and column
rendered in decimal); every failing build and test payload contains one whose
path is a nonempty string of the classifier's filename characters. -/
def locNeedle (p : String) (l c : Nat) : String :=
  p ++ ":" ++ toString l ++ ":" ++ toString c ++ ":"

/-! ### The succeeding build payload, split at its quote boundaries

In `buildEvHead ++ name ++ buildEvSuccTail` the interpolated target name is
enclosed in double quotes; a token containing no double quote therefore
occurs in the payload exactly when it occurs in one of the three quote-free
parts. -/
def buildEvHeadPre : String :=
  "\n\x7b\n  \"id\": \x7b\n    \"targetCompleted\": \x7b\n      \"label\": "

def buildEvSuccTailPost : String :=
  "\n    \x7d\n  \x7d,\n  \"completed\": \x7b\n    \"success\": true\n  \x7d\n\x7d\n"

theorem encodeVarintGo_small (fuel v : Nat) (h : v < 0x80) : encodeVarintGo fuel v = [v] := by
  cases fuel with
  | zero => rfl
  | succ f => simp [encodeVarintGo, Nat.not_le.mpr h]

theorem encodeVarintGo_congr (v : Nat) :
    ∀ f₁ f₂ : Nat, v ≤ f₁ → v ≤ f₂ → encodeVarintGo f₁ v = encodeVarintGo f₂ v := by
  induction v using Nat.strong_induction_on with
  | _ v ih =>
    intro f₁ f₂ h₁ h₂
    by_cases hv : v < 0x80
    · rw [encodeVarintGo_small f₁ v hv, encodeVarintGo_small f₂ v hv]
    · push_neg at hv
      obtain ⟨a, rfl⟩ : ∃ a, f₁ = a + 1 := ⟨f₁ - 1, by omega⟩
      obtain ⟨b, rfl⟩ : ∃ b, f₂ = b + 1 := ⟨f₂ - 1, by omega⟩
      have hlt : v >>> 7 < v := by
        rw [Nat.shiftRight_eq_div_pow]
        exact Nat.div_lt_self (by omega) (by norm_num)
      have hdiv : v >>> 7 ≤ v - 1 := by omega
      simp only [encodeVarintGo, if_pos hv]
      rw [ih (v >>> 7) hlt a b (by omega) (by omega)]

/-- Arithmetic unfolding of `encode_varint`: one base-128 digit per step. -/
theorem encode_varint_eq (v : Nat) :
    encode_varint v =
      if 0x80 ≤ v then (v % 0x80 + 0x80) :: encode_varint (v / 0x80) else [v] := by
  by_cases hv : 0x80 ≤ v
  · have hand : v &&& 0x7F = v % 0x80 := by
      have h := Nat.and_pow_two_sub_one_eq_mod v 7
      norm_num at h
      exact h
    have hlor : ∀ x, x < 128 → x ||| 128 = x + 128 := by decide
    have hhead : (v &&& 0x7F) ||| 0x80 = v % 0x80 + 0x80 := by
      rw [hand]
      exact hlor _ (Nat.mod_lt _ (by norm_num))
    have hshift : v >>> 7 = v / 0x80 := by
      rw [Nat.shiftRight_eq_div_pow]
    have hv1 : ∃ a, v = a + 1 := ⟨v - 1, by omega⟩
    obtain ⟨a, rfl⟩ := hv1
    simp only [encode_varint, encodeVarintGo, if_pos hv, hhead, hshift, if_pos hv]
    have hle : (a + 1) / 0x80 ≤ a := by
      have := Nat.div_le_self (a + 1) 0x80
      omega
    rw [encodeVarintGo_congr ((a + 1) / 0x80) a ((a + 1) / 0x80) hle (Nat.le_refl _)]
  · push_neg at hv
    rw [encode_varint, encodeVarintGo_small v v hv, if_neg (by omega)]

theorem encode_varint_ne_nil (v : Nat) : encode_varint v ≠ [] := by
  rw [encode_varint_eq]
  split <;> simp

theorem encode_varint_length_pos (v : Nat) : 1 ≤ (encode_varint v).length := by
  cases h : encode_varint v with
  | nil => exact absurd h (encode_varint_ne_nil v)
  | cons a l => simp

theorem readVarint_encode (v : Nat) :
    ∀ rest : List Nat, readVarint (encode_varint v ++ rest) = some (v, (encode_varint v).length) := by
  induction v using Nat.strong_induction_on with
  | _ v ih =>
    intro rest
    rw [encode_varint_eq]
    by_cases hv : 0x80 ≤ v
    · rw [if_pos hv]
      have hrec := ih (v / 0x80) (Nat.div_lt_self (by omega) (by norm_num)) rest
      rw [List.cons_append]
      simp only [readVarint]
      rw [if_neg (show ¬ v % 0x80 + 0x80 < 0x80 by omega), hrec]
      simp only [List.length_cons, Option.some.injEq, Prod.mk.injEq]
      exact ⟨by omega, by simp⟩
    · rw [if_neg hv, List.singleton_append]
      simp [readVarint, Nat.not_le.mp hv]

theorem readVarintCapped_encode (v : Nat) :
    ∀ (maxCont : Nat) (rest : List Nat), (encode_varint v).length ≤ maxCont + 1 →
      readVarintCapped maxCont (encode_varint v ++ rest) = some (v, (encode_varint v).length) := by
  induction v using Nat.strong_induction_on with
  | _ v ih =>
    intro maxCont rest hlen
    rw [encode_varint_eq] at hlen ⊢
    by_cases hv : 0x80 ≤ v
    · rw [if_pos hv] at hlen ⊢
      have hpos := encode_varint_length_pos (v / 0x80)
      simp only [List.length_cons] at hlen
      obtain ⟨m, rfl⟩ : ∃ m, maxCont = m + 1 := ⟨maxCont - 1, by omega⟩
      have hrec := ih (v / 0x80) (Nat.div_lt_self (by omega) (by norm_num)) m rest (by omega)
      rw [List.cons_append]
      simp only [readVarintCapped]
      rw [if_neg (show ¬ v % 0x80 + 0x80 < 0x80 by omega), hrec]
      simp only [List.length_cons, Option.some.injEq, Prod.mk.injEq]
      exact ⟨by omega, by simp⟩
    · rw [if_neg hv] at hlen ⊢
      rw [List.singleton_append]
      cases maxCont with
      | zero => simp [readVarintCapped, Nat.not_le.mp hv]
      | succ m => simp [readVarintCapped, Nat.not_le.mp hv]

theorem encode_varint_length_le (k : Nat) :
    ∀ v : Nat, v < 2 ^ (7 * (k + 1)) → (encode_varint v).length ≤ k + 1 := by
  induction k with
  | zero =>
    intro v hv
    rw [encode_varint_eq, if_neg (by norm_num at hv ⊢; omega)]
    simp
  | succ k ih =>
    intro v hv
    rw [encode_varint_eq]
    by_cases h : 0x80 ≤ v
    · rw [if_pos h]
      have hdiv : v / 0x80 < 2 ^ (7 * (k + 1)) := by
        rw [Nat.div_lt_iff_lt_mul (by norm_num)]
        calc v < 2 ^ (7 * (k + 2)) := hv
        _ = 2 ^ (7 * (k + 1)) * 0x80 := by ring
      simpa using ih (v / 0x80) hdiv
    · rw [if_neg h]; simp

theorem encode_varint_byte_shape (v : Nat) :
    ((encode_varint v).dropLast.all fun b => decide (0x80 ≤ b)) = true ∧
      (encode_varint v).getLastD 0 < 0x80 := by
  induction v using Nat.strong_induction_on with
  | _ v ih =>
    rw [encode_varint_eq]
    by_cases hv : 0x80 ≤ v
    · rw [if_pos hv]
      have hrec := ih (v / 0x80) (Nat.div_lt_self (by omega) (by norm_num))
      obtain ⟨x, xs, hx⟩ := List.exists_cons_of_ne_nil (encode_varint_ne_nil (v / 0x80))
      rw [hx] at hrec ⊢
      refine ⟨?_, ?_⟩
      · simp only [List.dropLast_cons_of_ne_nil (List.cons_ne_nil x xs), List.all_cons,
          Bool.and_eq_true]
        exact ⟨by simp, hrec.1⟩
      · simpa [List.getLastD_cons] using hrec.2
    · rw [if_neg hv]
      exact ⟨by simp, by simp; omega⟩

theorem streamOf_cons (r : List Nat) (rs : List (List Nat)) :
    streamOf (r :: rs) = encode_varint r.length ++ (r ++ streamOf rs) := by
  simp [streamOf, framed, List.append_assoc]

theorem streamOf_length_ge (rs : List (List Nat)) : rs.length ≤ (streamOf rs).length := by
  induction rs with
  | nil => simp [streamOf]
  | cons r rs ih =>
    rw [streamOf_cons]
    have h1 := encode_varint_length_pos r.length
    simp only [List.length_append, List.length_cons]
    omega

theorem parseRecordsGo_streamOf (rs : List (List Nat)) :
    ∀ fuel : Nat, rs.length ≤ fuel → parseRecordsGo fuel (streamOf rs) = some rs := by
  induction rs with
  | nil => intro fuel _; simp [streamOf, parseRecordsGo]
  | cons r rs ih =>
    intro fuel hfuel
    obtain ⟨f, rfl⟩ : ∃ f, fuel = f + 1 := ⟨fuel - 1, by simp at hfuel; omega⟩
    rw [streamOf_cons]
    obtain ⟨x, xs, hx⟩ := List.exists_cons_of_ne_nil (encode_varint_ne_nil r.length)
    have hread : readVarint (x :: (xs ++ (r ++ streamOf rs))) = some (r.length, (x :: xs).length) := by
      have h := readVarint_encode r.length (r ++ streamOf rs)
      rw [hx] at h
      simpa using h
    have hdropk : List.drop (x :: xs).length (x :: (xs ++ (r ++ streamOf rs))) = r ++ streamOf rs :=
      List.drop_left (x :: xs) (r ++ streamOf rs)
    rw [hx, List.cons_append]
    simp only [parseRecordsGo, hread, hdropk]
    rw [if_pos (by simp)]
    rw [List.drop_left, List.take_left]
    rw [ih f (by simp at hfuel; omega)]

theorem parseRecords_streamOf (rs : List (List Nat)) : parseRecords (streamOf rs) = some rs :=
  parseRecordsGo_streamOf rs (streamOf rs).length (streamOf_length_ge rs)

theorem isPrefB_append_extend {α : Type} [BEq α] (p : List α) :
    ∀ a b : List α, isPrefB p a = true → isPrefB p (a ++ b) = true := by
  induction p with
  | nil => intro a b _; rfl
  | cons c p ih =>
    intro a b h
    cases a with
    | nil => simp [isPrefB] at h
    | cons x a =>
      simp only [isPrefB, Bool.and_eq_true] at h
      simp only [List.cons_append, isPrefB, Bool.and_eq_true]
      exact ⟨h.1, ih a b h.2⟩

theorem isPrefB_self_append {α : Type} [BEq α] [LawfulBEq α] (p : List α) :
    ∀ r : List α, isPrefB p (p ++ r) = true := by
  induction p with
  | nil => intro r; rfl
  | cons c p ih =>
    intro r
    simp only [List.cons_append, isPrefB, Bool.and_eq_true]
    exact ⟨beq_self_eq_true c, ih r⟩

theorem containsB_append_left {α : Type} [BEq α] (pat : List α) :
    ∀ a b : List α, containsB pat a = true → containsB pat (a ++ b) = true := by
  intro a
  induction a with
  | nil =>
    intro b h
    simp only [containsB, List.isEmpty_iff] at h
    subst h
    cases b with
    | nil => rfl
    | cons x s => simp [containsB, isPrefB]
  | cons x a ih =>
    intro b h
    simp only [containsB, Bool.or_eq_true] at h
    rw [List.cons_append]
    simp only [containsB, Bool.or_eq_true]
    rcases h with h | h
    · exact Or.inl (isPrefB_append_extend pat (x :: a) b h)
    · exact Or.inr (ih b h)

theorem containsB_append_right {α : Type} [BEq α] (pat : List α) :
    ∀ a b : List α, containsB pat b = true → containsB pat (a ++ b) = true := by
  intro a
  induction a with
  | nil => intro b h; simpa using h
  | cons x a ih =>
    intro b h
    rw [List.cons_append]
    simp only [containsB, Bool.or_eq_true]
    exact Or.inr (ih b h)

theorem containsB_of_eq_append {α : Type} [BEq α] [LawfulBEq α] (pat s r : List α)
    (h : s = pat ++ r) : containsB pat s = true := by
  subst h
  cases hp : pat ++ r with
  | nil =>
    have hpe : pat = [] := by
      cases pat with
      | nil => rfl
      | cons c p => simp at hp
    simp [hp, containsB, hpe]
  | cons x s2 =>
    simp only [containsB, Bool.or_eq_true]
    left
    rw [← hp]
    exact isPrefB_self_append pat r

theorem containsB_mid {α : Type} [BEq α] [LawfulBEq α] (pat A B s : List α)
    (h : s = A ++ (pat ++ B)) : containsB pat s = true := by
  subst h
  exact containsB_append_right pat A (pat ++ B) (containsB_of_eq_append pat (pat ++ B) B rfl)

theorem isPrefB_append_cons {α : Type} [BEq α] [LawfulBEq α] (q : α) :
    ∀ (a : List α) (pat : List α) (b : List α), q ∉ pat →
      isPrefB pat (a ++ q :: b) = isPrefB pat a := by
  intro a
  induction a with
  | nil =>
    intro pat b hq
    cases pat with
    | nil => rfl
    | cons c p =>
      have hcq : (c == q) = false :=
        beq_eq_false_iff_ne.mpr (fun h => hq (h ▸ List.mem_cons_self c p))
      simp [isPrefB, hcq]
  | cons x a ih =>
    intro pat b hq
    cases pat with
    | nil => rfl
    | cons c p =>
      simp only [List.cons_append, isPrefB]
      exact congrArg (fun z => c == x && z) (ih p b (fun h => hq (List.mem_cons_of_mem c h)))

theorem containsB_append_cons {α : Type} [BEq α] [LawfulBEq α] (q : α) (pat : List α)
    (hq : q ∉ pat) (hp : pat ≠ []) :
    ∀ a b : List α, containsB pat (a ++ q :: b) = (containsB pat a || containsB pat b) := by
  intro a
  induction a with
  | nil =>
    intro b
    obtain ⟨c, p, rfl⟩ := List.exists_cons_of_ne_nil hp
    have hcq : (c == q) = false :=
      beq_eq_false_iff_ne.mpr (fun h => hq (h ▸ List.mem_cons_self c p))
    simp [containsB, isPrefB, hcq]
  | cons x a ih =>
    intro b
    rw [List.cons_append]
    simp only [containsB]
    have h7 : isPrefB pat (x :: (a ++ q :: b)) = isPrefB pat (x :: a) :=
      isPrefB_append_cons q (x :: a) pat b hq
    rw [h7, ih b, Bool.or_assoc]

/-! ## Helper lemmas about the generator pipeline -/
theorem mapO_of_forall {α β : Type} (f : α → Option β) (g : α → β) :
    ∀ l : List α, (∀ a ∈ l, f a = some (g a)) → mapO f l = some (l.map g) := by
  intro l
  induction l with
  | nil => intro _; rfl
  | cons a as ih =>
    intro h
    have ha := h a (List.mem_cons_self a as)
    have hrest := ih (fun x hx => h x (List.mem_cons_of_mem a hx))
    simp [mapO, ha, hrest]

theorem isFailureO_zero (i : Nat) : isFailureO 0 i = some false := by
  simp [isFailureO]

theorem one_le_pyInt_one_div (fr : ℚ) (h0 : 0 < fr) (h1 : fr ≤ 1) :
    1 ≤ (pyInt (1 / fr)).toNat := by
  have hq : (1 : ℚ) ≤ 1 / fr := one_le_one_div h0 h1
  have hq0 : (0 : ℚ) ≤ 1 / fr := by linarith
  have hfloor : (1 : Int) ≤ ⌊(1 / fr)⌋ := Int.le_floor.mpr (by exact_mod_cast hq)
  have hpy : pyInt (1 / fr) = ⌊(1 / fr)⌋ := by rw [pyInt, if_pos hq0]
  rw [hpy]
  omega

theorem isFailureO_pos (fr : ℚ) (h0 : 0 < fr) (h1 : fr ≤ 1) (i : Nat) :
    isFailureO fr i = some (i % (pyInt (1 / fr)).toNat == 0) := by
  have hk := one_le_pyInt_one_div fr h0 h1
  have hk2 : ¬ pyInt fr⁻¹ ≤ 0 := by rw [← one_div]; omega
  simp [isFailureO, pyDivOpt, pyModOpt, h0, ne_of_gt h0,
    show ¬ (pyInt (1 / fr)).toNat = 0 by omega, hk2]

/-! ### Containment in the five-segment and three-segment payload shapes

Both failing payloads have the shape `head ++ name ++ mid ++ selected ++ tail`
and both succeeding payloads the shape `head ++ name ++ tail`; the next
lemmas place a token occurring in one designated segment. -/
theorem sContains_in_head5 (h1 n m sel t tok : String)
    (h : containsB tok.data h1.data = true) :
    sContains (h1 ++ n ++ m ++ sel ++ t) tok = true := by
  simp only [sContains, String.data_append]
  refine containsB_append_left _ _ _ ?_
  refine containsB_append_left _ _ _ ?_
  refine containsB_append_left _ _ _ ?_
  exact containsB_append_left _ _ _ h

theorem sContains_in_mid5 (h1 n m sel t tok : String)
    (h : containsB tok.data m.data = true) :
    sContains (h1 ++ n ++ m ++ sel ++ t) tok = true := by
  simp only [sContains, String.data_append]
  refine containsB_append_left _ _ _ ?_
  refine containsB_append_left _ _ _ ?_
  exact containsB_append_right _ _ _ h

theorem sContains_in_sel5 (h1 n m sel t tok : String)
    (h : containsB tok.data sel.data = true) :
    sContains (h1 ++ n ++ m ++ sel ++ t) tok = true := by
  simp only [sContains, String.data_append]
  refine containsB_append_left _ _ _ ?_
  exact containsB_append_right _ _ _ h

theorem sContains_in_head3 (h1 n t tok : String)
    (h : containsB tok.data h1.data = true) :
    sContains (h1 ++ n ++ t) tok = true := by
  simp only [sContains, String.data_append]
  refine containsB_append_left _ _ _ ?_
  exact containsB_append_left _ _ _ h

/-! ### Unfolding the four payload shapes (definitional) -/
theorem buildFail_eq (name : String) (i : Nat) :
    create_build_event_message name false i =
      buildEvHead ++ name ++ buildEvFailMid ++
        (error_types (pkgPath name) i).getD
          (i % (error_types (pkgPath name) i).length) "" ++ buildEvFailTail := rfl

theorem buildSucc_eq (name : String) (i : Nat) :
    create_build_event_message name true i =
      buildEvHead ++ name ++ buildEvSuccTail := rfl

theorem testFail_eq (name : String) (i : Nat) :
    create_test_event_message name false i =
      testEvHead ++ name ++ testEvFailMid ++
        (test_errors (pkgPath name) i).getD
          (i % (test_errors (pkgPath name) i).length) "" ++ testEvFailTail := rfl

theorem testSucc_eq (name : String) (i : Nat) :
    create_test_event_message name true i =
      testEvHead ++ name ++ testEvSuccTail := rfl

theorem build_contains_targetCompleted (name : String) (s : Bool) (i : Nat) :
    sContains (create_build_event_message name s i) "targetCompleted" = true := by
  cases s with
  | true => rw [buildSucc_eq]; exact sContains_in_head3 _ _ _ _ (by decide)
  | false => rw [buildFail_eq]; exact sContains_in_head5 _ _ _ _ _ _ (by decide)

theorem test_contains_testResult (name : String) (s : Bool) (i : Nat) :
    sContains (create_test_event_message name s i) "testResult" = true := by
  cases s with
  | true => rw [testSucc_eq]; exact sContains_in_head3 _ _ _ _ (by decide)
  | false => rw [testFail_eq]; exact sContains_in_head5 _ _ _ _ _ _ (by decide)

theorem buildFail_contains_of_mid (name : String) (i : Nat) (tok : String)
    (h : containsB tok.data buildEvFailMid.data = true) :
    sContains (create_build_event_message name false i) tok = true := by
  rw [buildFail_eq]
  exact sContains_in_mid5 _ _ _ _ _ _ h

theorem build_fail_selected_location (name : String) (i : Nat) :
    ∃ p l c, p ≠ "" ∧ p.data.all isFilenameChar = true ∧
      containsB (locNeedle p l c).data
        ((error_types (pkgPath name) i).getD
          (i % (error_types (pkgPath name) i).length) "").data = true := by
  have hlen : (error_types (pkgPath name) i).length = 6 := rfl
  have h6 : i % 6 = 0 ∨ i % 6 = 1 ∨ i % 6 = 2 ∨ i % 6 = 3 ∨ i % 6 = 4 ∨ i % 6 = 5 := by omega
  rcases h6 with h | h | h | h | h | h
  · refine ⟨"/main.cpp", 42 + i % 100, 15 + i % 20, by decide, by decide, ?_⟩
    rw [hlen, h]
    rw [show (error_types (pkgPath name) i).getD 0 "" =
      pkgPath name ++ "/main.cpp:" ++ toString (42 + i % 100) ++ ":" ++
        toString (15 + i % 20) ++
        ": error: use of undeclared identifier \x27undefined_var_" ++ toString i ++ "\x27"
      from rfl]
    refine containsB_mid _ ((pkgPath name).data)
      ((" error: use of undeclared identifier \x27undefined_var_" : String).data ++
        ((toString i).data ++ ("\x27" : String).data)) _ ?_
    simp [locNeedle, List.append_assoc]
  · refine ⟨"/utils.h", 25 + i % 50, 8, by decide, by decide, ?_⟩
    rw [hlen, h]
    rw [show (error_types (pkgPath name) i).getD 1 "" =
      pkgPath name ++ "/utils.h:" ++ toString (25 + i % 50) ++
        ":8: error: \x27missing_function\x27 was not declared in this scope" from rfl]
    refine containsB_mid _ ((pkgPath name).data)
      ((" error: \x27missing_function\x27 was not declared in this scope" : String).data) _ ?_
    simp [locNeedle, List.append_assoc, show (toString (8 : Nat)) = "8" from rfl]
  · refine ⟨"/parser.cc", 78 + i % 30, 12, by decide, by decide, ?_⟩
    rw [hlen, h]
    rw [show (error_types (pkgPath name) i).getD 2 "" =
      pkgPath name ++ "/parser.cc:" ++ toString (78 + i % 30) ++
        ":12: error: no matching function for call to \x27parse_" ++ toString i ++ "\x27"
      from rfl]
    refine containsB_mid _ ((pkgPath name).data)
      ((" error: no matching function for call to \x27parse_" : String).data ++
        ((toString i).data ++ ("\x27" : String).data)) _ ?_
    simp [locNeedle, List.append_assoc, show (toString (12 : Nat)) = "12" from rfl]
  · refine ⟨"BUILD", 10 + i % 20, 1, by decide, by decide, ?_⟩
    rw [hlen, h]
    rw [show (error_types (pkgPath name) i).getD 3 "" =
      "BUILD:" ++ toString (10 + i % 20) ++
        ":1: name \x27undefined_dependency_" ++ toString i ++ "\x27 is not defined" from rfl]
    refine containsB_mid _ ([] : List Char)
      ((" name \x27undefined_dependency_" : String).data ++
        ((toString i).data ++ ("\x27 is not defined" : String).data)) _ ?_
    simp [locNeedle, List.append_assoc, show (toString (1 : Nat)) = "1" from rfl]
  · refine ⟨"/config.py", 33 + i % 40, 5, by decide, by decide, ?_⟩
    rw [hlen, h]
    rw [show (error_types (pkgPath name) i).getD 4 "" =
      pkgPath name ++ "/config.py:" ++ toString (33 + i % 40) ++
        ":5: SyntaxError: invalid syntax near \x27broken_code_" ++ toString i ++ "\x27"
      from rfl]
    refine containsB_mid _ ((pkgPath name).data)
      ((" SyntaxError: invalid syntax near \x27broken_code_" : String).data ++
        ((toString i).data ++ ("\x27" : String).data)) _ ?_
    simp [locNeedle, List.append_assoc, show (toString (5 : Nat)) = "5" from rfl]
  · refine ⟨"/lib.java", 91 + i % 60, 20, by decide, by decide, ?_⟩
    rw [hlen, h]
    rw [show (error_types (pkgPath name) i).getD 5 "" =
      pkgPath name ++ "/lib.java:" ++ toString (91 + i % 60) ++
        ":20: error: cannot find symbol variable missing_var_" ++ toString i from rfl]
    refine containsB_mid _ ((pkgPath name).data)
      ((" error: cannot find symbol variable missing_var_" : String).data ++
        (toString i).data) _ ?_
    simp [locNeedle, List.append_assoc, show (toString (20 : Nat)) = "20" from rfl]

theorem test_fail_selected_location (name : String) (i : Nat) :
    ∃ p l c, p ≠ "" ∧ p.data.all isFilenameChar = true ∧
      containsB (locNeedle p l c).data
        ((test_errors (pkgPath name) i).getD
          (i % (test_errors (pkgPath name) i).length) "").data = true := by
  have hlen : (test_errors (pkgPath name) i).length = 6 := rfl
  have h6 : i % 6 = 0 ∨ i % 6 = 1 ∨ i % 6 = 2 ∨ i % 6 = 3 ∨ i % 6 = 4 ∨ i % 6 = 5 := by omega
  rcases h6 with h | h | h | h | h | h
  · refine ⟨"/test_main.py", 45 + i % 80, 12, by decide, by decide, ?_⟩
    rw [hlen, h]
    rw [show (test_errors (pkgPath name) i).getD 0 "" =
      pkgPath name ++ "/test_main.py:" ++ toString (45 + i % 80) ++
        ":12: AssertionError: Expected " ++ toString (5 + i) ++ " but got " ++ toString (3 + i)
      from rfl]
    refine containsB_mid _ ((pkgPath name).data)
      ((" AssertionError: Expected " : String).data ++
        ((toString (5 + i)).data ++ ((" but got " : String).data ++ (toString (3 + i)).data))) _ ?_
    simp [locNeedle, List.append_assoc, show (toString (12 : Nat)) = "12" from rfl]
  · refine ⟨"/unit_tests.cpp", 67 + i % 60, 8, by decide, by decide, ?_⟩
    rw [hlen, h]
    rw [show (test_errors (pkgPath name) i).getD 1 "" =
      pkgPath name ++ "/unit_tests.cpp:" ++ toString (67 + i % 60) ++
        ":8: EXPECT_EQ failed: expected value_" ++ toString i ++ " == actual_value_" ++
        toString i from rfl]
    refine containsB_mid _ ((pkgPath name).data)
      ((" EXPECT_EQ failed: expected value_" : String).data ++
        ((toString i).data ++ ((" == actual_value_" : String).data ++ (toString i).data))) _ ?_
    simp [locNeedle, List.append_assoc, show (toString (8 : Nat)) = "8" from rfl]
  · refine ⟨"/integration_test.java", 89 + i % 40, 15, by decide, by decide, ?_⟩
    rw [hlen, h]
    rw [show (test_errors (pkgPath name) i).getD 2 "" =
      pkgPath name ++ "/integration_test.java:" ++ toString (89 + i % 40) ++
        ":15: junit.framework.AssertionFailedError: Test failed at step " ++ toString i
      from rfl]
    refine containsB_mid _ ((pkgPath name).data)
      ((" junit.framework.AssertionFailedError: Test failed at step " : String).data ++
        (toString i).data) _ ?_
    simp [locNeedle, List.append_assoc, show (toString (15 : Nat)) = "15" from rfl]
  · refine ⟨"/test_utils.go", 23 + i % 50, 5, by decide, by decide, ?_⟩
    rw [hlen, h]
    rw [show (test_errors (pkgPath name) i).getD 3 "" =
      pkgPath name ++ "/test_utils.go:" ++ toString (23 + i % 50) ++
        ":5: panic: runtime error: index out of range [" ++ toString i ++ "]" from rfl]
    refine containsB_mid _ ((pkgPath name).data)
      ((" panic: runtime error: index out of range [" : String).data ++
        ((toString i).data ++ ("]" : String).data)) _ ?_
    simp [locNeedle, List.append_assoc, show (toString (5 : Nat)) = "5" from rfl]
  · refine ⟨"/spec_test.rb", 56 + i % 70, 10, by decide, by decide, ?_⟩
    rw [hlen, h]
    rw [show (test_errors (pkgPath name) i).getD 4 "" =
      pkgPath name ++ "/spec_test.rb:" ++ toString (56 + i % 70) ++
        ":10: RSpec::Expectations::ExpectationNotMetError: expected behavior_" ++ toString i
      from rfl]
    refine containsB_mid _ ((pkgPath name).data)
      ((" RSpec::Expectations::ExpectationNotMetError: expected behavior_" : String).data ++
        (toString i).data) _ ?_
    simp [locNeedle, List.append_assoc, show (toString (10 : Nat)) = "10" from rfl]
  · refine ⟨"/test_runner.kt", 34 + i % 90, 7, by decide, by decide, ?_⟩
    rw [hlen, h]
    rw [show (test_errors (pkgPath name) i).getD 5 "" =
      pkgPath name ++ "/test_runner.kt:" ++ toString (34 + i % 90) ++
        ":7: kotlin.test.AssertionError: Test " ++ toString i ++ " assertion failed" from rfl]
    refine containsB_mid _ ((pkgPath name).data)
      ((" kotlin.test.AssertionError: Test " : String).data ++
        ((toString i).data ++ (" assertion failed" : String).data)) _ ?_
    simp [locNeedle, List.append_assoc, show (toString (7 : Nat)) = "7" from rfl]

theorem buildFail_has_location (name : String) (i : Nat) :
    ∃ p l c, p ≠ "" ∧ p.data.all isFilenameChar = true ∧
      sContains (create_build_event_message name false i) (locNeedle p l c) = true := by
  obtain ⟨p, l, c, h1, h2, h3⟩ := build_fail_selected_location name i
  refine ⟨p, l, c, h1, h2, ?_⟩
  rw [buildFail_eq]
  exact sContains_in_sel5 _ _ _ _ _ _ h3

theorem testFail_has_location (name : String) (i : Nat) :
    ∃ p l c, p ≠ "" ∧ p.data.all isFilenameChar = true ∧
      sContains (create_test_event_message name false i) (locNeedle p l c) = true := by
  obtain ⟨p, l, c, h1, h2, h3⟩ := test_fail_selected_location name i
  refine ⟨p, l, c, h1, h2, ?_⟩
  rw [testFail_eq]
  exact sContains_in_sel5 _ _ _ _ _ _ h3

theorem sContains_in_tail3 (h1 n t tok : String)
    (h : containsB tok.data t.data = true) :
    sContains (h1 ++ n ++ t) tok = true := by
  simp only [sContains, String.data_append]
  exact containsB_append_right _ _ _ h

theorem buildSucc_token_split (name tok : String) (i : Nat)
    (hq : ('"' : Char) ∉ tok.data) (hne : tok.data ≠ []) :
    sContains (create_build_event_message name true i) tok =
      (containsB tok.data buildEvHeadPre.data ||
        (containsB tok.data name.data || containsB tok.data buildEvSuccTailPost.data)) := by
  rw [buildSucc_eq]
  simp only [sContains, String.data_append]
  have hH : buildEvHead.data = buildEvHeadPre.data ++ ['"'] := rfl
  have hT : buildEvSuccTail.data = '"' :: buildEvSuccTailPost.data := rfl
  rw [hH, hT, List.append_assoc, List.append_assoc, List.singleton_append]
  rw [containsB_append_cons '"' tok.data hq hne]
  rw [containsB_append_cons '"' tok.data hq hne]

theorem readVarintSpec_encode (v : Nat) (h : v < 2 ^ 64) (rest : List Nat) :
    readVarintSpec (encode_varint v ++ rest) = some (v, (encode_varint v).length) := by
  have hlen : (encode_varint v).length ≤ 10 :=
    encode_varint_length_le 9 v (lt_trans h (by norm_num))
  have hcap := readVarintCapped_encode v 10 rest (by omega)
  simp only [readVarintSpec, MAX_VARINT_BYTES, hcap]
  rw [if_pos h]

/-! ## The claims -/
/-- Claim C7: the engine's configured limits equal the constants of
`src/bin/config.py` — default maximum BEP file size 100 MB, at most 50
failures kept, 5000-character messages, 10 error lines per message, 20
strings extracted per event, 10 varint bytes, 3 annotation retry attempts,
and a 1.0-second exponential-backoff base delay. -/
theorem claim_C7_config_constants :
    MAX_FILE_SIZE_MB_DEFAULT = 100 ∧ MAX_FAILURES_DEFAULT = 50 ∧ MAX_MESSAGE_SIZE = 5000 ∧
      MAX_ERROR_LINES = 10 ∧ MAX_STRINGS_PER_EVENT = 20 ∧ MAX_VARINT_BYTES = 10 ∧
      ANNOTATION_RETRY_ATTEMPTS = 3 ∧ ANNOTATION_RETRY_BASE_DELAY_SECONDS = 1 :=
  ⟨rfl, rfl, rfl, rfl, rfl, rfl, rfl, by norm_num [ ANNOTATION_RETRY_BASE_DELAY_SECONDS]⟩

/-- Claim C8: the analyzer exits with code 1 and a standard-error diagnostic
containing `Error: BEP file not found` when the input file does not exist,
and exits with code 0 on a zero-byte input, which parses as an empty record
stream — a successful "no failures" analysis. -/
theorem claim_C8_analyzer_exit_codes :
    (analyzerRun none).1 = 1 ∧
      sContains (analyzerRun none).2 "Error: BEP file not found" = true ∧
      parseRecords [] = some [] ∧ (analyzerRun (some [])).1 = 0 :=
  ⟨rfl, by decide, rfl, rfl⟩

/-- Claim C3: for every value below `2 ^ 64`, `encode_varint` produces at
most `MAX_VARINT_BYTES = 10` bytes, and the varint reader that enforces the
10-byte cap and rejects values wider than 64 bits accepts every such
encoding, returning the value and its encoded length. -/
theorem claim_C3_varint_length_bound (v : Nat) (h : v < 2 ^ 64) (rest : List Nat) :
    (encode_varint v).length ≤ MAX_VARINT_BYTES ∧
      readVarintSpec (encode_varint v ++ rest) = some (v, (encode_varint v).length) :=
  ⟨encode_varint_length_le 9 v (lt_trans h (by norm_num)), readVarintSpec_encode v h rest⟩

theorem claim_C3_varint_length_bound_witness :
    (encode_varint (2 ^ 64 - 1)).length ≤ MAX_VARINT_BYTES ∧
      readVarintSpec (encode_varint (2 ^ 64 - 1) ++ []) =
        some (2 ^ 64 - 1, (encode_varint (2 ^ 64 - 1)).length) :=
  claim_C3_varint_length_bound (2 ^ 64 - 1) (by norm_num) []

/-- Claim C2 (counterexample): the claim quantifies over every nonnegative
integer, but the spec's reader returns a `uint64` and rejects wider values;
at `v = 2 ^ 64` the encoding is not decoded back — the reader rejects it —
so the round-trip identity fails as stated. -/
theorem claim_C2_varint_roundtrip_cex :
    readVarintSpec (encode_varint (2 ^ 64)) = none := by decide

/-- Claim C2 (amended): for every `v < 2 ^ 64`, `encode_varint v` is the
standard unsigned base-128 varint encoding — every byte except the last has
the continuation bit `0x80` set, the last byte has it clear — and the spec's
reader decodes it back to exactly `(v, len(encode_varint v))`, for any bytes
following the encoding. -/
theorem claim_C2_varint_roundtrip_amended (v : Nat) (h : v < 2 ^ 64) (rest : List Nat) :
    ((encode_varint v).dropLast.all fun b => decide (0x80 ≤ b)) = true ∧
      (encode_varint v).getLastD 0 < 0x80 ∧
      readVarintSpec (encode_varint v ++ rest) = some (v, (encode_varint v).length) := by
  obtain ⟨h1, h2⟩ := encode_varint_byte_shape v
  exact ⟨h1, h2, readVarintSpec_encode v h rest⟩

theorem claim_C2_varint_roundtrip_witness :
    ((encode_varint 300).dropLast.all fun b => decide (0x80 ≤ b)) = true ∧
      (encode_varint 300).getLastD 0 < 0x80 ∧
      readVarintSpec (encode_varint 300 ++ []) = some (300, (encode_varint 300).length) :=
  claim_C2_varint_roundtrip_amended 300 (by norm_num) []

theorem targetEventContentO_of_isFailure (fr : ℚ) (i : Nat) (b : Bool)
    (h : isFailureO fr i = some b) :
    targetEventContentO fr i =
      some (if i % 2 = 0 then create_build_event_message (targetName i) (!b) i
            else create_test_event_message (targetName i) (!b) i) := by
  simp [targetEventContentO, h]

theorem isFailureO_some (fr : ℚ) (h0 : 0 ≤ fr) (h1 : fr ≤ 1) (i : Nat) :
    ∃ b, isFailureO fr i = some b := by
  rcases lt_or_eq_of_le h0 with hpos | hz
  · exact ⟨_, isFailureO_pos fr hpos h1 i⟩
  · exact ⟨false, hz ▸ isFailureO_zero i⟩

theorem mapO_total {α β : Type} (f : α → Option β) :
    ∀ l : List α, (∀ a ∈ l, ∃ b, f a = some b) →
      ∃ bs, mapO f l = some bs ∧ bs.length = l.length := by
  intro l
  induction l with
  | nil => intro _; exact ⟨[], rfl, rfl⟩
  | cons a as ih =>
    intro h
    obtain ⟨b, hb⟩ := h a (List.mem_cons_self a as)
    obtain ⟨bs, hbs, hlen⟩ := ih (fun x hx => h x (List.mem_cons_of_mem a hx))
    exact ⟨b :: bs, by simp [mapO, hb, hbs], by simp [hlen]⟩

theorem count_true_map_false (l : List Nat) :
    ((l.map fun _ => false).count true) = 0 := by
  rw [List.count_eq_zero]
  simp

theorem getLast_concat_shape (h y : List Nat) (xs : List (List Nat)) :
    (h :: (xs ++ [y])).getLast? = some y := by
  rw [show h :: (xs ++ [y]) = (h :: xs) ++ [y] from rfl, List.getLast?_concat]

/-- Claim C1: for every target count and failure rate in `[0, 1]`,
`generate_large_bep_file` writes a stream of exactly `n + 2` length-prefixed
records — header, the `n` target events in order, completion — each record
being `encode_varint` of the payload length followed by the payload, and the
record-stream reader yields back exactly those `n + 2` payloads in emission
order. -/
theorem claim_C1_generator_stream (n : Nat) (fr : ℚ) (h0 : 0 ≤ fr) (h1 : fr ≤ 1) :
    ∃ contents k,
      mapO (targetEventContentO fr) (List.range n) = some contents ∧ contents.length = n ∧
      numFailuresO n fr = some k ∧
      genRecordsO n fr =
        some (strBytes headerMsg :: (contents.map strBytes ++ [strBytes (completionMsg k)])) ∧
      (strBytes headerMsg :: (contents.map strBytes ++ [strBytes (completionMsg k)])).length
        = n + 2 ∧
      genFileO n fr =
        some (streamOf
          (strBytes headerMsg :: (contents.map strBytes ++ [strBytes (completionMsg k)]))) ∧
      parseRecords
          (streamOf (strBytes headerMsg :: (contents.map strBytes ++ [strBytes (completionMsg k)])))
        = some (strBytes headerMsg :: (contents.map strBytes ++ [strBytes (completionMsg k)])) := by
  obtain ⟨contents, hc, hclen⟩ := mapO_total (targetEventContentO fr) (List.range n)
    (fun i _ => by
      obtain ⟨b, hb⟩ := isFailureO_some fr h0 h1 i
      exact ⟨_, targetEventContentO_of_isFailure fr i b hb⟩)
  obtain ⟨flags, hf, hflen⟩ := mapO_total (isFailureO fr) (List.range n)
    (fun i _ => isFailureO_some fr h0 h1 i)
  have hclen2 : contents.length = n := by simpa using hclen
  have hnum : numFailuresO n fr = some (flags.count true) := by simp [numFailuresO, hf]
  have hrec : genRecordsO n fr =
      some (strBytes headerMsg ::
        (contents.map strBytes ++ [strBytes (completionMsg (flags.count true))])) := by
    simp [genRecordsO, hc, hnum]
  refine ⟨contents, flags.count true, hc, hclen2, hnum, hrec, ?_, ?_, parseRecords_streamOf _⟩
  · simp only [List.length_cons, List.length_append, List.length_map, List.length_nil, hclen2]
  · simp [genFileO, hrec]

theorem claim_C1_generator_stream_witness :
    ∃ contents k,
      mapO (targetEventContentO 0.05) (List.range 2) = some contents ∧ contents.length = 2 ∧
      numFailuresO 2 0.05 = some k ∧
      genRecordsO 2 0.05 =
        some (strBytes headerMsg :: (contents.map strBytes ++ [strBytes (completionMsg k)])) ∧
      (strBytes headerMsg :: (contents.map strBytes ++ [strBytes (completionMsg k)])).length
        = 2 + 2 ∧
      genFileO 2 0.05 =
        some (streamOf
          (strBytes headerMsg :: (contents.map strBytes ++ [strBytes (completionMsg k)]))) ∧
      parseRecords
          (streamOf (strBytes headerMsg :: (contents.map strBytes ++ [strBytes (completionMsg k)])))
        = some (strBytes headerMsg :: (contents.map strBytes ++ [strBytes (completionMsg k)])) :=
  claim_C1_generator_stream 2 0.05 (by norm_num) (by norm_num)

/-- Claim C9: with `failure_rate = 0` the guard `failure_rate > 0`
short-circuits, so the division `1 / failure_rate` is never evaluated —
`isFailureO 0 i` returns `some false` (never a division-by-zero error) for
every index — zero failing events are written, and the completion record is
the one carrying `"code": 0`. -/
theorem claim_C9_zero_failure_rate (n i : Nat) :
    isFailureO 0 i = some false ∧
      numFailuresO n 0 = some 0 ∧
      (∃ contents, mapO (targetEventContentO 0) (List.range n) = some contents ∧
        genRecordsO n 0 =
          some (strBytes headerMsg :: (contents.map strBytes ++ [strBytes (completionMsg 0)])) ∧
        (strBytes headerMsg :: (contents.map strBytes ++ [strBytes (completionMsg 0)])).getLast?
          = some (strBytes (completionMsg 0))) ∧
      sContains (completionMsg 0) "\"code\": 0" = true ∧
      sContains (completionMsg 0) "\"code\": 1" = false := by
  have hflags : mapO (isFailureO 0) (List.range n) =
      some ((List.range n).map fun _ => false) :=
    mapO_of_forall _ _ _ (fun a _ => isFailureO_zero a)
  have hnum : numFailuresO n 0 = some 0 := by
    simp only [numFailuresO, hflags, count_true_map_false]
  have hcontents : mapO (targetEventContentO 0) (List.range n) =
      some ((List.range n).map fun j =>
        if j % 2 = 0 then create_build_event_message (targetName j) true j
        else create_test_event_message (targetName j) true j) :=
    mapO_of_forall _ _ _ (fun a _ => by
      simpa using targetEventContentO_of_isFailure 0 a false (isFailureO_zero a))
  refine ⟨isFailureO_zero i, hnum, ⟨_, hcontents, ?_, getLast_concat_shape _ _ _⟩, by decide,
    by decide⟩
  simp [genRecordsO, hcontents, hnum]

/-- Claim C10: the completion record's `exitCode.code` is `1` exactly when at
least one failing target event was counted and `0` otherwise; and whenever
`num_targets ≥ 1` and `0 < failure_rate ≤ 1`, index `0` is marked failing
(`0 % int(1 / failure_rate) == 0`), so the failure count is positive and the
last generated record is the completion record carrying `"code": 1`. -/
theorem claim_C10_completion_exit_code (n : Nat) (fr : ℚ) (hn : 1 ≤ n) (h0 : 0 < fr)
    (h1 : fr ≤ 1) :
    (∀ m : Nat, sContains (completionMsg m) "\"code\": 1" = decide (0 < m)) ∧
      isFailureO fr 0 = some true ∧
      ∃ k, numFailuresO n fr = some k ∧ 0 < k ∧
        sContains (completionMsg k) "\"code\": 1" = true ∧
        ∃ rs, genRecordsO n fr = some rs ∧ rs.getLast? = some (strBytes (completionMsg k)) := by
  have hm : ∀ m : Nat, sContains (completionMsg m) "\"code\": 1" = decide (0 < m) := by
    intro m
    cases m with
    | zero => decide
    | succ m' =>
      simp only [completionMsg]
      rw [if_pos (Nat.succ_pos m'), show decide (0 < m' + 1) = true by simp]
      decide
  have hflagval : ∀ j : Nat, isFailureO fr j = some (j % (pyInt (1 / fr)).toNat == 0) :=
    isFailureO_pos fr h0 h1
  have hflags : mapO (isFailureO fr) (List.range n) =
      some ((List.range n).map fun j => j % (pyInt (1 / fr)).toNat == 0) :=
    mapO_of_forall _ _ _ (fun a _ => hflagval a)
  have hnum : numFailuresO n fr =
      some (((List.range n).map fun j => j % (pyInt (1 / fr)).toNat == 0).count true) := by
    simp [numFailuresO, hflags]
  have hkpos : 0 < ((List.range n).map fun j => j % (pyInt (1 / fr)).toNat == 0).count true := by
    have h00 : ((0 : Nat) % (pyInt (1 / fr)).toNat == 0) = true := by simp
    exact List.count_pos_iff.mpr
      (h00 ▸ List.mem_map_of_mem _ (List.mem_range.mpr (by omega)))
  have hcontents : mapO (targetEventContentO fr) (List.range n) =
      some ((List.range n).map fun j =>
        if j % 2 = 0 then
          create_build_event_message (targetName j) (!(j % (pyInt (1 / fr)).toNat == 0)) j
        else create_test_event_message (targetName j) (!(j % (pyInt (1 / fr)).toNat == 0)) j) :=
    mapO_of_forall _ _ _ (fun a _ => targetEventContentO_of_isFailure fr a _ (hflagval a))
  have hrec : genRecordsO n fr =
      some (strBytes headerMsg ::
        (((List.range n).map fun j =>
            if j % 2 = 0 then
              create_build_event_message (targetName j) (!(j % (pyInt (1 / fr)).toNat == 0)) j
            else
              create_test_event_message (targetName j)
                (!(j % (pyInt (1 / fr)).toNat == 0)) j).map strBytes ++
          [strBytes (completionMsg
            (((List.range n).map fun j => j % (pyInt (1 / fr)).toNat == 0).count true))])) := by
    simp [genRecordsO, hcontents, hnum]
  refine ⟨hm, ?_, _, hnum, hkpos, ?_, _, hrec, getLast_concat_shape _ _ _⟩
  · rw [hflagval 0]; simp
  · rw [hm]; exact decide_eq_true hkpos

theorem claim_C10_completion_exit_code_witness :
    (∀ m : Nat, sContains (completionMsg m) "\"code\": 1" = decide (0 < m)) ∧
      isFailureO 0.05 0 = some true ∧
      ∃ k, numFailuresO 1 0.05 = some k ∧ 0 < k ∧
        sContains (completionMsg k) "\"code\": 1" = true ∧
        ∃ rs, genRecordsO 1 0.05 = some rs ∧ rs.getLast? = some (strBytes (completionMsg k)) :=
  claim_C10_completion_exit_code 1 0.05 (by norm_num) (by norm_num) (by norm_num)

set_option maxRecDepth 1000000 in
/-- Claim C4: with 1000 targets at the default failure rate `0.05`
(`int(1 / 0.05)` evaluates to 20), exactly the 50 indices divisible by 20
are marked failing; every even index yields a build event (its payload names
`targetCompleted`) and every odd index a test event (its payload names
`testResult`); and every failing event's payload carries `"success": false`
together with an embedded `path:line:column:` diagnostic. -/
theorem claim_C4_default_rate_profile :
    (pyInt (1 / (0.05:ℚ))).toNat = 20 ∧
      (List.range 1000).countP (fun i => isFailureO 0.05 i == some true) = 50 ∧
      ∀ i, i < 1000 →
        isFailureO 0.05 i = some (i % 20 == 0) ∧
        ∃ c, targetEventContentO 0.05 i = some c ∧
          (i % 2 = 0 → sContains c "targetCompleted" = true) ∧
          (i % 2 ≠ 0 → sContains c "testResult" = true) ∧
          (i % 20 = 0 → sContains c "\"success\": false" = true ∧
            ∃ p l col, p ≠ "" ∧ p.data.all isFilenameChar = true ∧
              sContains c (locNeedle p l col) = true) := by
  have h20 : (pyInt (1 / (0.05:ℚ))).toNat = 20 := by
    rw [show pyInt (1 / (0.05:ℚ)) = 20 by norm_num [pyInt]]
    rfl
  have hfix : ∀ i : Nat, isFailureO 0.05 i = some (i % 20 == 0) := fun i => by
    have hi := isFailureO_pos 0.05 (by norm_num) (by norm_num) i
    rw [h20] at hi
    exact hi
  refine ⟨h20, ?_, ?_⟩
  · rw [List.countP_congr (fun i _ => by rw [hfix i])]
    decide
  · intro i _
    refine ⟨hfix i, _,
      targetEventContentO_of_isFailure 0.05 i (i % 20 == 0) (hfix i), ?_, ?_, ?_⟩
    · intro he
      rw [if_pos he]
      exact build_contains_targetCompleted _ _ _
    · intro ho
      rw [if_neg ho]
      exact test_contains_testResult _ _ _
    · intro h20i
      have he : i % 2 = 0 := by omega
      have hbt : (i % 20 == 0) = true := by simp [h20i]
      rw [if_pos he, hbt, Bool.not_true]
      exact ⟨buildFail_contains_of_mid _ _ _ (by decide), buildFail_has_location _ _⟩

theorem claim_C4_default_rate_profile_witness :
    isFailureO 0.05 20 = some (20 % 20 == 0) ∧
      ∃ c, targetEventContentO 0.05 20 = some c ∧
        (20 % 2 = 0 → sContains c "targetCompleted" = true) ∧
        (20 % 2 ≠ 0 → sContains c "testResult" = true) ∧
        (20 % 20 = 0 → sContains c "\"success\": false" = true ∧
          ∃ p l col, p ≠ "" ∧ p.data.all isFilenameChar = true ∧
            sContains c (locNeedle p l col) = true) :=
  claim_C4_default_rate_profile.2.2 20 (by norm_num)

set_option maxRecDepth 1000000 in
/-- Claim C5: for every target name and index, the failing build payload and
the failing test payload each contain a `path:line:column:` substring whose
path is a nonempty string of filename characters and whose line and column
are decimal numbers; in particular the failing build payload at index 0
contains `main.cpp:42:15: error:`. -/
theorem claim_C5_failure_messages_have_location (name : String) (i : Nat) :
    (∃ p l c, p ≠ "" ∧ p.data.all isFilenameChar = true ∧
      sContains (create_build_event_message name false i) (locNeedle p l c) = true) ∧
      (∃ p l c, p ≠ "" ∧ p.data.all isFilenameChar = true ∧
        sContains (create_test_event_message name false i) (locNeedle p l c) = true) ∧
      sContains (create_build_event_message "//pkg0000:target000000" false 0)
        "main.cpp:42:15: error:" = true :=
  ⟨buildFail_has_location name i, testFail_has_location name i, by decide⟩

set_option maxRecDepth 1000000 in
/-- Claim C6 (counterexample): the claim asserts every failing build payload
contains the token `error`, but at `target_index = 3` the selected template
(`BUILD:… name '…' is not defined`) and the fixed payload text contain no
lowercase `error` at all, so the claim fails as stated. -/
theorem claim_C6_marker_tokens_cex :
    sContains (create_build_event_message "//pkg0000:target000003" false 3) "error" = false := by
  decide

/-- Claim C6 (amended): every failing build payload contains the
failure-marker tokens `BUILD_FAILED` and `aborted` and also the
success-marker token `success` (in the text `"success": false`), so both
marker families co-occur in one failing record; with `success = True` the
payload contains `"success": true` and — provided the target name itself
contains none of them — none of the failure tokens `failed`, `error`, or
`aborted`. -/
theorem claim_C6_marker_tokens_amended (name : String) (i : Nat) :
    sContains (create_build_event_message name false i) "BUILD_FAILED" = true ∧
      sContains (create_build_event_message name false i) "aborted" = true ∧
      sContains (create_build_event_message name false i) "\"success\": false" = true ∧
      sContains (create_build_event_message name true i) "\"success\": true" = true ∧
      (∀ tok : String, tok ∈ ["failed", "error", "aborted"] →
        sContains name tok = false →
        sContains (create_build_event_message name true i) tok = false) := by
  refine ⟨buildFail_contains_of_mid _ _ _ (by decide),
    buildFail_contains_of_mid _ _ _ (by decide),
    buildFail_contains_of_mid _ _ _ (by decide), ?_, ?_⟩
  · rw [buildSucc_eq]
    exact sContains_in_tail3 _ _ _ _ (by decide)
  · intro tok htok hname
    simp only [sContains] at hname
    simp only [List.mem_cons, List.not_mem_nil, or_false] at htok
    rcases htok with rfl | rfl | rfl
    · rw [buildSucc_token_split name "failed" i (by decide) (by decide),
        show containsB ("failed" : String).data buildEvHeadPre.data = false from by decide,
        show containsB ("failed" : String).data buildEvSuccTailPost.data = false from by decide,
        hname]
      rfl
    · rw [buildSucc_token_split name "error" i (by decide) (by decide),
        show containsB ("error" : String).data buildEvHeadPre.data = false from by decide,
        show containsB ("error" : String).data buildEvSuccTailPost.data = false from by decide,
        hname]
      rfl
    · rw [buildSucc_token_split name "aborted" i (by decide) (by decide),
        show containsB ("aborted" : String).data buildEvHeadPre.data = false from by decide,
        show containsB ("aborted" : String).data buildEvSuccTailPost.data = false from by decide,
        hname]
      rfl

set_option maxRecDepth 1000000 in
theorem claim_C6_marker_tokens_amended_witness :
    sContains (create_build_event_message "//pkg0000:target000003" false 3)
        "BUILD_FAILED" = true ∧
      sContains (create_build_event_message "//pkg0000:target000003" true 3) "error" = false :=
  ⟨(claim_C6_marker_tokens_amended "//pkg0000:target000003" 3).1,
   (claim_C6_marker_tokens_amended "//pkg0000:target000003" 3).2.2.2.2 "error" (by simp)
     (by decide)⟩
